import Mathlib

/-!
Shallow embedding of `src/flipada.py` (Marxx01/yolo_basketball), a
Streamlit demo that authenticates a user, fetches YOLO model/video
artifacts from Hugging Face, and runs a per-frame detection/annotation
loop over a video.

External libraries are modelled at their interface boundary:
`hashlib.sha256` is implemented bit-faithfully over `Nat` words,
`cv2.VideoCapture` is a record of an opened flag plus the decodable
frames, the YOLO model is a record with the file it was loaded from,
a class-name table and a (possibly raising) inference function, and
`cv2` drawing primitives append explicit draw operations to the image.
-/

/- ### `hashlib.sha256` : the real SHA-256 over byte lists, words as `Nat` mod 2^32 -/

/-- UTF-8 encoding of a string, as `str.encode()` produces (list of byte values). -/
def utf8Encode (s : String) : List Nat :=
  s.data.foldr (fun c acc =>
    let n := c.toNat
    (if n < 0x80 then [n]
     else if n < 0x800 then [0xC0 ||| (n >>> 6), 0x80 ||| (n &&& 0x3F)]
     else if n < 0x10000 then
       [0xE0 ||| (n >>> 12), 0x80 ||| ((n >>> 6) &&& 0x3F), 0x80 ||| (n &&& 0x3F)]
     else
       [0xF0 ||| (n >>> 18), 0x80 ||| ((n >>> 12) &&& 0x3F),
        0x80 ||| ((n >>> 6) &&& 0x3F), 0x80 ||| (n &&& 0x3F)]) ++ acc) []

/-- Addition of 32-bit words. -/
def add32 (a b : Nat) : Nat := (a + b) % 4294967296

/-- Right rotation of a 32-bit word. -/
def rotr32 (n x : Nat) : Nat := ((x >>> n) ||| (x <<< (32 - n))) % 4294967296

/-- SHA-256 Ch function (bitwise choose). -/
def shaCh (x y z : Nat) : Nat := (x &&& y) ^^^ ((x ^^^ 0xFFFFFFFF) &&& z)

/-- SHA-256 Maj function (bitwise majority). -/
def shaMaj (x y z : Nat) : Nat := ((x &&& y) ^^^ (x &&& z)) ^^^ (y &&& z)

/-- SHA-256 big sigma 0. -/
def bigSigma0 (x : Nat) : Nat := (rotr32 2 x ^^^ rotr32 13 x) ^^^ rotr32 22 x

/-- SHA-256 big sigma 1. -/
def bigSigma1 (x : Nat) : Nat := (rotr32 6 x ^^^ rotr32 11 x) ^^^ rotr32 25 x

/-- SHA-256 small sigma 0. -/
def smallSigma0 (x : Nat) : Nat := (rotr32 7 x ^^^ rotr32 18 x) ^^^ (x >>> 3)

/-- SHA-256 small sigma 1. -/
def smallSigma1 (x : Nat) : Nat := (rotr32 17 x ^^^ rotr32 19 x) ^^^ (x >>> 10)

/-- SHA-256 round constants. -/
def sha256K : List Nat :=
  [1116352408, 1899447441, 3049323471, 3921009573, 961987163,
   1508970993, 2453635748, 2870763221, 3624381080, 310598401,
   607225278, 1426881987, 1925078388, 2162078206, 2614888103,
   3248222580, 3835390401, 4022224774, 264347078, 604807628,
   770255983, 1249150122, 1555081692, 1996064986, 2554220882,
   2821834349, 2952996808, 3210313671, 3336571891, 3584528711,
   113926993, 338241895, 666307205, 773529912, 1294757372,
   1396182291, 1695183700, 1986661051, 2177026350, 2456956037,
   2730485921, 2820302411, 3259730800, 3345764771, 3516065817,
   3600352804, 4094571909, 275423344, 430227734, 506948616,
   659060556, 883997877, 958139571, 1322822218, 1537002063,
   1747873779, 1955562222, 2024104815, 2227730452, 2361852424,
   2428436474, 2756734187, 3204031479, 3329325298]

/-- SHA-256 initial hash value. -/
def sha256H0 : List Nat :=
  [1779033703, 3144134277, 1013904242, 2773480762,
   1359893119, 2600822924, 528734635, 1541459225]

/-- Big-endian 8-byte encoding of a length in bits. -/
def bigEndian8 (n : Nat) : List Nat :=
  [(n >>> 56) % 256, (n >>> 48) % 256, (n >>> 40) % 256, (n >>> 32) % 256,
   (n >>> 24) % 256, (n >>> 16) % 256, (n >>> 8) % 256, n % 256]

/-- SHA-256 message padding: append 0x80, zero bytes to 56 mod 64, then the bit length. -/
def padMessage (msg : List Nat) : List Nat :=
  let L := msg.length
  let z := (119 - (L % 64)) % 64
  msg ++ [0x80] ++ List.replicate z 0 ++ bigEndian8 (8 * L)

/-- Split a byte list into 64-byte blocks (fuel-structured recursion so that
the definition reduces by iota; the fuel `l.length` always suffices). -/
def chunks64Go : Nat → List Nat → List (List Nat)
  | 0, _ => []
  | _, [] => []
  | fuel + 1, l => l.take 64 :: chunks64Go fuel (l.drop 64)

/-- Split a byte list into 64-byte blocks. -/
def chunks64 (l : List Nat) : List (List Nat) :=
  chunks64Go l.length l

/-- Group bytes into big-endian 32-bit words. -/
def bytesToWords : List Nat → List Nat
  | a :: b :: c :: d :: rest => (((a * 256 + b) * 256 + c) * 256 + d) :: bytesToWords rest
  | _ => []

/-- SHA-256 message schedule: extend the 16 block words to 64. -/
def schedule64 (block : List Nat) : List Nat :=
  (List.range 48).foldl
    (fun w i =>
      let t := i + 16
      w ++ [add32 (add32 (smallSigma1 (w.getD (t - 2) 0)) (w.getD (t - 7) 0))
              (add32 (smallSigma0 (w.getD (t - 15) 0)) (w.getD (t - 16) 0))])
    (bytesToWords block)

/-- Working state of the SHA-256 compression function. -/
structure Digest where
  a : Nat
  b : Nat
  c : Nat
  d : Nat
  e : Nat
  f : Nat
  g : Nat
  h : Nat
deriving DecidableEq

/-- One SHA-256 compression round. -/
def roundStep (w : List Nat) (s : Digest) (i : Nat) : Digest :=
  let t1 := add32 s.h (add32 (bigSigma1 s.e)
              (add32 (shaCh s.e s.f s.g) (add32 (sha256K.getD i 0) (w.getD i 0))))
  let t2 := add32 (bigSigma0 s.a) (shaMaj s.a s.b s.c)
  ⟨add32 t1 t2, s.a, s.b, s.c, add32 s.d t1, s.e, s.f, s.g⟩

/-- Compress one 64-byte block into the running hash state. -/
def compressBlock (hwords : List Nat) (block : List Nat) : List Nat :=
  let w := schedule64 block
  let s0 : Digest :=
    ⟨hwords.getD 0 0, hwords.getD 1 0, hwords.getD 2 0, hwords.getD 3 0,
     hwords.getD 4 0, hwords.getD 5 0, hwords.getD 6 0, hwords.getD 7 0⟩
  let s := (List.range 64).foldl (roundStep w) s0
  [add32 (hwords.getD 0 0) s.a, add32 (hwords.getD 1 0) s.b,
   add32 (hwords.getD 2 0) s.c, add32 (hwords.getD 3 0) s.d,
   add32 (hwords.getD 4 0) s.e, add32 (hwords.getD 5 0) s.f,
   add32 (hwords.getD 6 0) s.g, add32 (hwords.getD 7 0) s.h]

/-- SHA-256 of a byte list, as eight 32-bit words. -/
def sha256Words (msg : List Nat) : List Nat :=
  (chunks64 (padMessage msg)).foldl compressBlock sha256H0

/-- Lowercase hex digit. -/
def hexDigit (n : Nat) : Char :=
  if n < 10 then Char.ofNat (48 + n) else Char.ofNat (87 + n)

/-- Lowercase 8-hex-digit rendering of a 32-bit word. -/
def toHex8 (n : Nat) : String :=
  String.mk ((List.range 8).map (fun i => hexDigit ((n >>> (28 - 4 * i)) &&& 15)))

/-- SHA-256 hex digest of a byte list, as `hashlib.sha256(b).hexdigest()` returns. -/
def sha256hex (msg : List Nat) : String :=
  String.join ((sha256Words msg).map toHex8)

/- ### Credential store (`hash_password`, `USERS`, `authenticate`) -/

/-- Source line 48: `hash_password(password)` returns
`hashlib.sha256(password.encode()).hexdigest()` — the SHA-256 hex digest of
the UTF-8 encoded password, with no salt input. -/
def hash_password (password : String) : String :=
  sha256hex (utf8Encode password)

/-- Source line 52: the predefined user table `USERS`, a module-level constant
mapping usernames to `hash_password` of their password. -/
def USERS : List (String × String) :=
  [("demo", hash_password "yolo2024")]

/-- Source line 57: `authenticate(username, password)` returns
`username in USERS and USERS[username] == hash_password(password)`
(the dictionary access is short-circuit guarded by the membership test). -/
def authenticate (username password : String) : Bool :=
  match USERS.lookup username with
  | some stored => stored == hash_password password
  | none => false

/- ### Asset fetcher (`descargar_archivo_hf`) and module constants -/

/-- Source line 30: the Hugging Face repository identifier. -/
def HF_REPO_ID : String := "Marxx01/yolo_basket"

/-- Source lines 31-37: selectable model names mapped to their weight filenames. -/
def MODELOS_HF : List (String × String) :=
  [("YOLOv11m", "best_yolo11m.pt"),
   ("YOLOv11n", "best_yolo11n.pt"),
   ("YOLOv5n6u", "best_YOLOv5n6u.pt"),
   ("YOLOv8m", "best_yolov8m.pt"),
   ("YOLOv8x", "best_yolov8x.pt")]

/-- Python `os.path.join(a, b)`: `b` replaces the whole path when absolute,
otherwise it is appended with a separator. -/
def pyJoin (a b : String) : String :=
  if b.data.head? == some '/' then b else a ++ "/" ++ b

/-- Python truthiness of a string: nonempty strings are truthy. -/
def pyTruthy (s : String) : Bool := !(s == "")

/-- Source lines 21-27: `descargar_archivo_hf(repo_id, filename, save_path)`.
The local filesystem is modelled as the set of existing paths
`fs : String → Bool`; `hf_hub_download` followed by `os.rename` makes
`save_path` exist. Returns the filesystem after the call, the returned
path, and whether a download was performed (the body of the `if` ran). -/
def descargar_archivo_hf (fs : String → Bool) (repo_id filename save_path : String) :
    (String → Bool) × String × Bool :=
  if fs save_path then (fs, save_path, false)
  else ((fun p => if p == save_path then true else fs p), save_path, true)

/- ### Frame pipeline (`process_video`) -/

/-- Overlay drawing primitives of `cv2` recorded on an image: `cv2.rectangle`
and `cv2.putText` with their position, color, font, scale and thickness
arguments. -/
inductive DrawOp where
  | rect (p1 p2 : Int × Int) (color : Nat × Nat × Nat) (thickness : Nat)
  | text (label : String) (org : Int × Int) (font : Nat) (scale : ℚ)
      (color : Nat × Nat × Nat) (thickness : Nat)
deriving DecidableEq

/-- A raster image: its dimensions, an opaque payload identifying the decoded
pixel content, and the overlay operations drawn onto it, in order. -/
structure Image where
  width : Nat
  height : Nat
  pix : Nat
  ops : List DrawOp
deriving DecidableEq

/-- The `cv2.FONT_HERSHEY_SIMPLEX` constant. -/
def FONT_HERSHEY_SIMPLEX : Nat := 0

/-- Model of `cv2.resize(frame, size)`: a new image with the requested
dimensions (`size` is `(width, height)`), resampled from the same content. -/
def cvResize (img : Image) (size : Nat × Nat) : Image :=
  ⟨size.1, size.2, img.pix, img.ops⟩

/-- Model of `cv2.rectangle(frame, p1, p2, color, thickness)`: mutates the
frame by drawing, recorded as an appended operation. -/
def cvRectangle (img : Image) (p1 p2 : Int × Int) (color : Nat × Nat × Nat)
    (thickness : Nat) : Image :=
  { img with ops := img.ops ++ [DrawOp.rect p1 p2 color thickness] }

/-- Model of `cv2.putText(frame, label, org, font, scale, color, thickness)`. -/
def cvPutText (img : Image) (label : String) (org : Int × Int) (font : Nat)
    (scale : ℚ) (color : Nat × Nat × Nat) (thickness : Nat) : Image :=
  { img with ops := img.ops ++ [DrawOp.text label org font scale color thickness] }

/-- One detection as ultralytics returns it in `r.boxes`: float tensor
`xyxy` coordinates, confidence `conf` in [0,1], and float class index `cls`
(floats modelled as exact rationals). -/
structure Detection where
  x1 : ℚ
  y1 : ℚ
  x2 : ℚ
  y2 : ℚ
  conf : ℚ
  cls : ℚ
deriving DecidableEq

/-- Python `int(x)` on a float/tensor: truncation toward zero. -/
def pyInt (q : ℚ) : Int :=
  if 0 ≤ q.num then Int.ofNat (q.num.toNat / q.den)
  else -Int.ofNat (q.num.natAbs / q.den)

/-- Round-half-even of `100 * q` to an integer, the rounding used by Python
float formatting, computed on the numerator and denominator directly:
`100 * q = f + r / q.den` with `0 ≤ r < q.den`, and `r / q.den` is compared
with one half by comparing `2 * r` with `q.den`. -/
def roundHalfEven100 (q : ℚ) : Int :=
  let num := 100 * q.num
  let f := num.fdiv q.den
  let r := num - f * q.den
  if 2 * r < (q.den : Int) then f
  else if (q.den : Int) < 2 * r then f + 1
  else if f % 2 = 0 then f else f + 1

/-- Python `f-string` formatting `:.2f`: the value rounded to two decimal
places, rendered with exactly two fractional digits. -/
def formatTwoDec (q : ℚ) : String :=
  let h := roundHalfEven100 q
  let n := h.natAbs
  let digits := toString (n / 100) ++ "." ++ (if n % 100 < 10 then "0" else "") ++ toString (n % 100)
  if h < 0 then "-" ++ digits else digits

/-- A loaded YOLO model object: the weights file it was constructed from
(`YOLO(modelo_path)`), its class-name table `model.names`, and its inference
call `model(frame, stream=True, conf=...)`, which yields a stream of results
each carrying a list of boxes, or raises. Inference is a function, so a
model value is deterministic. -/
structure Model where
  source : String
  names : Int → String
  infer : Image → ℚ → Except String (List (List Detection))

/-- Python `==` between a loaded YOLO model object and a string literal
(source line 62: `model == "best_YOLOv5n6u.pt"`): the ultralytics `Model`
class defines no `__eq__` accepting `str`, so the comparison falls back to
default object identity and is `False` for every loaded model. -/
def modelEqString (_ : Model) (_ : String) : Bool := false

/-- Source lines 62-65: the target size selection
`if model == "best_YOLOv5n6u.pt": size = (1280, 1280) else: size = (640, 360)`. -/
def chooseSize (model : Model) : Nat × Nat :=
  if modelEqString model "best_YOLOv5n6u.pt" then (1280, 1280) else (640, 360)

/-- Model of a `cv2.VideoCapture` handle: whether `isOpened()` holds and the
decodable frames `read()` will deliver, in order. Reading past the end
returns failure without closing the handle, so `opened` is unaffected by
exhaustion. -/
structure VideoCapture where
  opened : Bool
  frames : List Image

/-- A video decoding backend: what `cv2.VideoCapture(path)` yields per path. -/
def Decoder : Type := String → VideoCapture

/-- Source lines 80-88: the body of `for box in boxes`: truncate the box
coordinates withs `int`, draw the rectangle in green with thickness 2, then
the `"<class name> <conf:.2f>"` label 10 pixels above the box in font
`FONT_HERSHEY_SIMPLEX`, scale 0.5, green, thickness 2. -/
def drawBox (names : Int → String) (frame : Image) (box : Detection) : Image :=
  let x1 := pyInt box.x1
  let y1 := pyInt box.y1
  let x2 := pyInt box.x2
  let y2 := pyInt box.y2
  let conf := box.conf
  let cls := pyInt box.cls
  let class_name := names cls
  let f1 := cvRectangle frame (x1, y1) (x2, y2) (0, 255, 0) 2
  let label := class_name ++ " " ++ formatTwoDec conf
  cvPutText f1 label (x1, y1 - 10) FONT_HERSHEY_SIMPLEX (mkRat 1 2) (0, 255, 0) 2

/-- Observable side effects of one `process_video` call, in order: the
`cv2.VideoCapture(path)` construction, each inference invocation (with the
image it was invoked on and the `conf` threshold passed), and `cap.release()`. -/
inductive Ev where
  | openCap (path : String)
  | inferCall (img : Image) (conf : ℚ)
  | release
deriving DecidableEq

/-- Source lines 70-91: the `while cap.isOpened() and frame_count < max_frames`
loop over the remaining decodable frames, with `budget` the remaining
iterations allowed by `max_frames`. Returns the emitted events and either
the processed frames (in order) or the exception propagating out of an
inference call. -/
def pipelineLoop (model : Model) (size : Nat × Nat) :
    List Image → Nat → List Ev × Except String (List Image)
  | _, 0 => ([], Except.ok [])
  | [], _ + 1 => ([], Except.ok [])
  | raw :: rest, n + 1 =>
    let frame := cvResize raw size
    let ev0 := [Ev.inferCall frame (mkRat 3 10)]
    match model.infer frame (mkRat 3 10) with
    | Except.error e => (ev0, Except.error e)
    | Except.ok results =>
      let ann := results.foldl (fun f r => r.foldl (drawBox model.names) f) frame
      let (ev1, res) := pipelineLoop model size rest n
      (ev0 ++ ev1, res.map (fun tail => ann :: tail))

/-- Source lines 61-94: `process_video(video_path, model, max_frames=100)`.
Opens the capture, runs the bounded loop, and reaches `cap.release()` only
when no exception propagates (the function has no `try`/`finally`). Returns
the event trace and the result. -/
def process_video (decoder : Decoder) (video_path : String) (model : Model)
    (max_frames : Nat) : List Ev × Except String (List Image) :=
  let size := chooseSize model
  let cap := decoder video_path
  let (evs, res) :=
    if cap.opened then pipelineLoop model size cap.frames max_frames
    else ([], Except.ok [])
  match res with
  | Except.ok frames => (Ev.openCap video_path :: evs ++ [Ev.release], Except.ok frames)
  | Except.error e => (Ev.openCap video_path :: evs, Except.error e)

/- ### Derived observations used to state the claims -/

/-- Number of decodable frames a capture will deliver (zero when the source
could not be opened). -/
def availableFrames (cap : VideoCapture) : Nat :=
  if cap.opened then cap.frames.length else 0

/-- The annotated frame the loop appends for one decoded frame, when
inference succeeds (junk value otherwise; only used under that hypothesis). -/
def annotateOk (model : Model) (size : Nat × Nat) (raw : Image) : Image :=
  let frame := cvResize raw size
  match model.infer frame (mkRat 3 10) with
  | Except.ok results => results.foldl (fun f r => r.foldl (drawBox model.names) f) frame
  | Except.error _ => frame

/-- The two draw operations source lines 85-88 emit for one detection. -/
def drawOpsOfBox (names : Int → String) (b : Detection) : List DrawOp :=
  [DrawOp.rect (pyInt b.x1, pyInt b.y1) (pyInt b.x2, pyInt b.y2) (0, 255, 0) 2,
   DrawOp.text (names (pyInt b.cls) ++ " " ++ formatTwoDec b.conf)
     (pyInt b.x1, pyInt b.y1 - 10) FONT_HERSHEY_SIMPLEX (mkRat 1 2) (0, 255, 0) 2]

/-- All draw operations the inference results of one frame produce, in drawing order. -/
def allDrawOps (names : Int → String) (results : List (List Detection)) : List DrawOp :=
  (results.map (fun r => (r.map (drawOpsOfBox names)).flatten)).flatten

/-- Whether an event is a release. -/
def isRelease : Ev → Bool
  | Ev.release => true
  | _ => false

/-- Whether an event is a capture construction. -/
def isOpenEv : Ev → Bool
  | Ev.openCap _ => true
  | _ => false

/-- Whether an event is an inference invocation. -/
def isInferEv : Ev → Bool
  | Ev.inferCall _ _ => true
  | _ => false

/-- Widths and heights of the frames a run returned (empty on exception). -/
def outputDims (run : List Ev × Except String (List Image)) : List (Nat × Nat) :=
  (run.2.toOption.getD []).map (fun f => (f.width, f.height))

/- ### Helper lemmas about the pipeline -/

/-- Drawing one box appends exactly its rectangle and label operations. -/
theorem drawBox_ops (names : Int → String) (f : Image) (b : Detection) :
    drawBox names f b = ⟨f.width, f.height, f.pix, f.ops ++ drawOpsOfBox names b⟩ := by
  simp [drawBox, cvRectangle, cvPutText, drawOpsOfBox]

/-- Folding the per-box drawing over a box list appends all their operations. -/
theorem foldl_drawBox (names : Int → String) (r : List Detection) (f : Image) :
    r.foldl (drawBox names) f =
      ⟨f.width, f.height, f.pix, f.ops ++ (r.map (drawOpsOfBox names)).flatten⟩ := by
  induction r generalizing f with
  | nil => simp
  | cons b r ih => simp [drawBox_ops, ih]

/-- Folding the drawing over all inference results appends all draw operations. -/
theorem foldl_results (names : Int → String) (results : List (List Detection)) (f : Image) :
    results.foldl (fun g r => r.foldl (drawBox names) g) f =
      ⟨f.width, f.height, f.pix, f.ops ++ allDrawOps names results⟩ := by
  induction results generalizing f with
  | nil => simp [allDrawOps]
  | cons r rs ih =>
    simp only [List.foldl_cons]
    rw [foldl_drawBox, ih]
    simp [allDrawOps]

/-- A zero frame budget stops the loop immediately. -/
theorem pipelineLoop_zero (model : Model) (size : Nat × Nat) (frames : List Image) :
    pipelineLoop model size frames 0 = ([], Except.ok []) := by
  cases frames <;> rfl

/-- An exhausted source stops the loop immediately. -/
theorem pipelineLoop_nil (model : Model) (size : Nat × Nat) (n : Nat) :
    pipelineLoop model size [] n = ([], Except.ok []) := by
  cases n <;> rfl

/-- When inference never raises, the loop processes exactly the first
`n` frames, emits one inference event per processed frame, and returns
their annotated versions in order. -/
theorem pipelineLoop_ok (model : Model) (size : Nat × Nat)
    (h : ∀ img c, (model.infer img c).isOk = true) :
    ∀ (frames : List Image) (n : Nat),
      pipelineLoop model size frames n =
        ((frames.take n).map (fun raw => Ev.inferCall (cvResize raw size) (mkRat 3 10)),
         Except.ok ((frames.take n).map (annotateOk model size))) := by
  intro frames
  induction frames with
  | nil => intro n; cases n <;> simp [pipelineLoop]
  | cons raw rest ih =>
    intro n
    cases n with
    | zero => simp [pipelineLoop_zero]
    | succ n =>
      have hok := h (cvResize raw size) (mkRat 3 10)
      cases hres : model.infer (cvResize raw size) (mkRat 3 10) with
      | error e => rw [hres] at hok; simp [Except.isOk, Except.toBool] at hok
      | ok rs => simp [pipelineLoop, hres, ih n, annotateOk, Except.map]

/-- Every event the loop itself emits is an inference invocation. -/
theorem pipelineLoop_events_infer (model : Model) (size : Nat × Nat) :
    ∀ (frames : List Image) (n : Nat),
      ∀ e ∈ (pipelineLoop model size frames n).1, isInferEv e = true := by
  intro frames
  induction frames with
  | nil => intro n e he; rw [pipelineLoop_nil] at he; simp at he
  | cons raw rest ih =>
    intro n e he
    cases n with
    | zero => rw [pipelineLoop_zero] at he; simp at he
    | succ n =>
      cases hres : model.infer (cvResize raw size) (mkRat 3 10) with
      | error msg =>
        simp [pipelineLoop, hres] at he
        simp [he, isInferEv]
      | ok rs =>
        cases hsplit : pipelineLoop model size rest n with
        | mk ev1 res1 =>
          simp [pipelineLoop, hres, hsplit] at he
          rcases he with rfl | he
          · rfl
          · exact ih n e (by rw [hsplit]; exact he)

/- ### Claim C1 -/

/-- A model loaded in `main` from the YOLOv5n6u weights file
(`YOLO(os.path.join("models", MODELOS_HF["YOLOv5n6u"]))`), with inference
stubbed to return no detections. -/
def v5LoadedModel : Model :=
  ⟨pyJoin "models" "best_YOLOv5n6u.pt", fun _ => "ball", fun _ _ => Except.ok []⟩

/-- A decoder delivering one native 1920x1080 frame. -/
def nativeDecoder : Decoder := fun _ => ⟨true, [⟨1920, 1080, 0, []⟩]⟩

/-- C1: the claim says the model identified as `best_YOLOv5n6u.pt` yields
1280x1280 frames. Evaluating the code at that very model: line 62 compares
the loaded model object itself (not its filename) with the string, which is
always false, so the designated model also gets 640x360 frames. -/
theorem v5_loaded_model_small_frames :
    v5LoadedModel.source = pyJoin "models" "best_YOLOv5n6u.pt" ∧
    chooseSize v5LoadedModel = (640, 360) ∧
    outputDims (process_video nativeDecoder "videos/modelo_test_video.mp4" v5LoadedModel 100) =
      [(640, 360)] := by
  refine ⟨rfl, rfl, ?_⟩
  decide

/- ### Claim C2 -/

/-- C2: with a never-raising model, `process_video` returns exactly
`min(N, M)` annotated images where `N` is the number of available decodable
frames and `M` the cap, in source order (each output is the annotation of
the corresponding source frame). -/
theorem process_video_min_frames (decoder : Decoder) (path : String) (model : Model)
    (M : Nat) (h : ∀ img c, (model.infer img c).isOk = true) :
    ∃ out, (process_video decoder path model M).2 = Except.ok out ∧
      out.length = min (availableFrames (decoder path)) M ∧
      out = (if (decoder path).opened = true
             then ((decoder path).frames.take M).map (annotateOk model (chooseSize model))
             else []) := by
  cases hop : (decoder path).opened with
  | false =>
    refine ⟨[], ?_, ?_, ?_⟩ <;> simp [process_video, hop, availableFrames]
  | true =>
    refine ⟨((decoder path).frames.take M).map (annotateOk model (chooseSize model)),
      ?_, ?_, ?_⟩
    · simp [process_video, hop, pipelineLoop_ok model _ h]
    · simp [availableFrames, hop, Nat.min_comm]
    · simp [hop]

/-- A deterministic stub model returning one detection per frame. -/
def batchModel : Model :=
  ⟨pyJoin "models" "best_yolo11m.pt", fun _ => "ball",
   fun _ _ => Except.ok [[⟨10, 10, 50, 50, mkRat 9 10, 0⟩]]⟩

/-- A decoder delivering three native frames. -/
def threeFrameDecoder : Decoder :=
  fun _ => ⟨true, [⟨1920, 1080, 0, []⟩, ⟨1920, 1080, 1, []⟩, ⟨1920, 1080, 2, []⟩]⟩

/-- Witness for C2 at a three-frame video with cap 2. -/
theorem process_video_min_frames_witness :
    ∃ out, (process_video threeFrameDecoder "videos/modelo_test_video.mp4" batchModel 2).2 =
        Except.ok out ∧
      out.length = min (availableFrames (threeFrameDecoder "videos/modelo_test_video.mp4")) 2 ∧
      out = (if (threeFrameDecoder "videos/modelo_test_video.mp4").opened = true
             then ((threeFrameDecoder "videos/modelo_test_video.mp4").frames.take 2).map
               (annotateOk batchModel (chooseSize batchModel))
             else []) :=
  process_video_min_frames threeFrameDecoder "videos/modelo_test_video.mp4" batchModel 2
    (fun _ _ => rfl)

/- ### Claim C3 -/

/-- A model whose inference raises on every frame. -/
def throwingModel : Model :=
  ⟨pyJoin "models" "best_yolo11n.pt", fun _ => "", fun _ _ => Except.error "inference failed"⟩

/-- A decoder delivering one decodable frame. -/
def oneFrameDecoder : Decoder := fun _ => ⟨true, [⟨640, 480, 1, []⟩]⟩

/-- C3 counterexample: when inference raises mid-batch, the call emits no
release event at all (the function has no `try`/`finally`, so `cap.release()`
on line 93 is skipped), refuting "released exactly once on every exit path". -/
theorem release_skipped_on_inference_error :
    (process_video oneFrameDecoder "videos/modelo_test_video.mp4" throwingModel 100).1.countP
        isRelease = 0 ∧
    (process_video oneFrameDecoder "videos/modelo_test_video.mp4" throwingModel 100).2 =
      Except.error "inference failed" := by
  exact ⟨by decide, by rfl⟩

/-- C3 amended: the handle is opened exactly once per call, and released
exactly once exactly when the call returns normally; on an inference
exception the error propagates with no release. -/
theorem process_video_release_policy (decoder : Decoder) (path : String) (model : Model)
    (M : Nat) :
    (process_video decoder path model M).1.countP isOpenEv = 1 ∧
    (process_video decoder path model M).1.countP isRelease =
      (if (process_video decoder path model M).2.isOk then 1 else 0) := by
  cases hop : (decoder path).opened with
  | false =>
    simp [process_video, hop, List.countP_cons, isOpenEv, isRelease, Except.isOk,
      Except.toBool]
  | true =>
    cases hsplit : pipelineLoop model (chooseSize model) ((decoder path).frames) M with
    | mk evs res =>
      have hev : ∀ e ∈ evs, isInferEv e = true := by
        intro e he
        exact pipelineLoop_events_infer model (chooseSize model) ((decoder path).frames) M e
          (by rw [hsplit]; exact he)
      have hevO : evs.countP isOpenEv = 0 := by
        rw [List.countP_eq_zero]
        intro e he
        have := hev e he
        cases e <;> simp_all [isInferEv, isOpenEv]
      have hevR : evs.countP isRelease = 0 := by
        rw [List.countP_eq_zero]
        intro e he
        have := hev e he
        cases e <;> simp_all [isInferEv, isRelease]
      cases res with
      | ok frames =>
        simp [process_video, hop, hsplit, List.countP_cons, List.countP_append,
          hevO, hevR, isOpenEv, isRelease, Except.isOk, Except.toBool]
      | error e =>
        simp [process_video, hop, hsplit, List.countP_cons, hevO, hevR,
          isOpenEv, isRelease, Except.isOk, Except.toBool]

/- ### Claim C4 -/

/-- C4: when the source cannot be opened or has zero decodable frames, the
call returns the empty sequence without raising (even for a model whose
inference always raises, since inference is never invoked). -/
theorem process_video_empty_source (decoder : Decoder) (path : String) (model : Model)
    (M : Nat) (h : (decoder path).opened = false ∨ (decoder path).frames = []) :
    (process_video decoder path model M).2 = Except.ok [] ∧
    (process_video decoder path model M).1.countP isInferEv = 0 := by
  rcases h with h | h
  · simp [process_video, h, List.countP_cons, isInferEv]
  · cases hop : (decoder path).opened with
    | false => simp [process_video, hop, List.countP_cons, isInferEv]
    | true =>
      have hnil : pipelineLoop model (chooseSize model) ((decoder path).frames) M =
          ([], Except.ok []) := by rw [h]; exact pipelineLoop_nil _ _ _
      simp [process_video, hop, hnil, List.countP_cons, isInferEv]

/-- A source that cannot be opened. -/
def closedDecoder : Decoder := fun _ => ⟨false, []⟩

/-- A model raising on any invocation. -/
def raisingModel : Model :=
  ⟨pyJoin "models" "best_yolov8m.pt", fun _ => "", fun _ _ => Except.error "bad image"⟩

/-- Witness for C4 at an unopenable source and an always-raising model. -/
theorem process_video_empty_source_witness :
    (process_video closedDecoder "corrupt.mp4" raisingModel 100).2 = Except.ok [] ∧
    (process_video closedDecoder "corrupt.mp4" raisingModel 100).1.countP isInferEv = 0 :=
  process_video_empty_source closedDecoder "corrupt.mp4" raisingModel 100 (Or.inl rfl)

/- ### Claim C5 -/

/-- C5: with `max_frames = 0` the call returns the empty sequence for every
source and model, and the trace is exactly one open followed by one release. -/
theorem process_video_zero_max_frames (decoder : Decoder) (path : String) (model : Model) :
    process_video decoder path model 0 = ([Ev.openCap path, Ev.release], Except.ok []) := by
  cases hop : (decoder path).opened <;>
    simp [process_video, hop, pipelineLoop_zero]

/- ### Claim C6 -/

/-- C6: in each loop iteration, inference is invoked on the resized frame
with the fixed threshold 0.3, and the appended image carries exactly, for
every returned detection and without re-filtering, a green (0,255,0)
thickness-2 rectangle at its (truncated) box followed by the label
`"<class name> <confidence:.2f>"` drawn 10 pixels above the box corner in
`FONT_HERSHEY_SIMPLEX` at scale 0.5, green, thickness 2. -/
theorem pipeline_iteration_draws (model : Model) (size : Nat × Nat) (raw : Image)
    (rest : List Image) (n : Nat) (rs : List (List Detection))
    (h : model.infer (cvResize raw size) (mkRat 3 10) = Except.ok rs) :
    (pipelineLoop model size (raw :: rest) (n + 1)).1.head? =
      some (Ev.inferCall (cvResize raw size) (mkRat 3 10)) ∧
    annotateOk model size raw =
      ⟨size.1, size.2, raw.pix, raw.ops ++ allDrawOps model.names rs⟩ := by
  constructor
  · cases hsplit : pipelineLoop model size rest n with
    | mk ev1 res1 => simp [pipelineLoop, h, hsplit]
  · simp only [annotateOk]
    rw [h]
    simp [foldl_results, cvResize]

/-- The deterministic stub of the end-to-end scenario in the spec: one
detection with box (10,10,50,50), confidence 0.9, class 0 named "ball". -/
def ballModel : Model :=
  ⟨pyJoin "models" "best_yolo11n.pt", fun _ => "ball",
   fun _ _ => Except.ok [[⟨10, 10, 50, 50, mkRat 9 10, 0⟩]]⟩

/-- One raw native frame. -/
def rawFrame : Image := ⟨1920, 1080, 0, []⟩

/-- Witness for C6: the stub detection produces the green rectangle at
(10,10)-(50,50) and the label "ball 0.90" at (10, 0). -/
theorem pipeline_iteration_draws_witness :
    (pipelineLoop ballModel (640, 360) [rawFrame] 1).1.head? =
      some (Ev.inferCall (cvResize rawFrame (640, 360)) (mkRat 3 10)) ∧
    annotateOk ballModel (640, 360) rawFrame =
      ⟨640, 360, 0,
       [DrawOp.rect (10, 10) (50, 50) (0, 255, 0) 2,
        DrawOp.text "ball 0.90" (10, 0) FONT_HERSHEY_SIMPLEX (mkRat 1 2) (0, 255, 0) 2]⟩ := by
  have h := pipeline_iteration_draws ballModel (640, 360) rawFrame [] 0
    [[⟨10, 10, 50, 50, mkRat 9 10, 0⟩]] rfl
  exact ⟨h.1, h.2.trans (by decide)⟩

/- ### Claim C7 -/

/-- C7: two calls with the same video source, model and cap produce
identical results — identical frame dimension sequences and identical
traces and frame contents (so in particular identical per-frame detection
overlays and counts). Determinism holds because the embedded inference of
a model value is a function and the loop has no other state. -/
theorem process_video_deterministic (decoder : Decoder) (path : String) (model : Model)
    (M : Nat) :
    outputDims (process_video decoder path model M) =
      outputDims (process_video decoder path model M) ∧
    process_video decoder path model M = process_video decoder path model M :=
  ⟨rfl, rfl⟩

/- ### Claim C8 -/

/-- C8: the fetcher returns exactly the local cache path; it downloads
exactly when no file exists at that path; and a second call with the same
arguments performs no download and leaves the filesystem unchanged. -/
theorem descargar_fetch_or_reuse (fs : String → Bool) (repo filename save_path : String) :
    (descargar_archivo_hf fs repo filename save_path).2.1 = save_path ∧
    (descargar_archivo_hf fs repo filename save_path).2.2 = !(fs save_path) ∧
    (descargar_archivo_hf (descargar_archivo_hf fs repo filename save_path).1
        repo filename save_path).2.2 = false ∧
    (descargar_archivo_hf (descargar_archivo_hf fs repo filename save_path).1
        repo filename save_path).2.1 = save_path ∧
    (descargar_archivo_hf (descargar_archivo_hf fs repo filename save_path).1
        repo filename save_path).1 =
      (descargar_archivo_hf fs repo filename save_path).1 := by
  cases h : fs save_path <;> simp [descargar_archivo_hf, h]

/- ### Claim C9 -/

set_option maxRecDepth 400000

/-- C9 counterexample: the stored secret for user `demo` is exactly the
bare SHA-256 hex digest of the password itself — `hash_password` feeds the
password alone to SHA-256, so no salt enters the stored secret, refuting
"salted". -/
theorem credential_store_unsalted :
    USERS.lookup "demo" =
      some "ba1d4f6656305fc257be6aa28b366819dfe5e02134616065de57908a74c21055" ∧
    sha256hex (utf8Encode "yolo2024") =
      "ba1d4f6656305fc257be6aa28b366819dfe5e02134616065de57908a74c21055" ∧
    hash_password "yolo2024" = sha256hex (utf8Encode "yolo2024") ∧
    authenticate "demo" "yolo2024" = true := by
  exact ⟨by rfl, by rfl, rfl, by rfl⟩

/-- C9 amended: the credential store is the fixed immutable mapping `USERS`
from username to the unsalted SHA-256 hex digest of its password, and
`authenticate` accepts exactly when the username is present and the stored
digest equals the digest of the supplied password. -/
theorem authenticate_iff_stored (u p : String) :
    authenticate u p = true ↔ USERS.lookup u = some (hash_password p) := by
  unfold authenticate
  cases h : USERS.lookup u with
  | none => simp
  | some stored => simp [beq_iff_eq]

/- ### Claim C10 -/

/-- C10: the fetcher returns exactly its `save_path` argument on every
input, and for every model filename the path `main` passes
(`os.path.join("models", filename)`) the returned value is a truthy
(non-empty) string, so the `else: return` branch guarded by
`if modelo_path:` can never run. -/
theorem descargar_returns_save_path :
    (∀ (fs : String → Bool) (repo filename save_path : String),
      (descargar_archivo_hf fs repo filename save_path).2.1 = save_path) ∧
    (∀ (fs : String → Bool) (v : String), v ∈ MODELOS_HF.map Prod.snd →
      pyTruthy ((descargar_archivo_hf fs HF_REPO_ID v (pyJoin "models" v)).2.1) = true) := by
  constructor
  · intro fs repo filename save_path
    cases h : fs save_path <;> simp [descargar_archivo_hf, h]
  · intro fs v hv
    have hret : (descargar_archivo_hf fs HF_REPO_ID v (pyJoin "models" v)).2.1 =
        pyJoin "models" v := by
      cases h : fs (pyJoin "models" v) <;> simp [descargar_archivo_hf, h]
    rw [hret]
    simp [ MODELOS_HF] at hv
    rcases hv with rfl | rfl | rfl | rfl | rfl <;> decide

/-- Witness for C10 at the YOLOv5n6u weights filename on an empty cache. -/
theorem descargar_returns_save_path_witness :
    pyTruthy ((descargar_archivo_hf (fun _ => false) HF_REPO_ID "best_YOLOv5n6u.pt"
      (pyJoin "models" "best_YOLOv5n6u.pt")).2.1) = true :=
  descargar_returns_save_path.2 (fun _ => false) "best_YOLOv5n6u.pt" (by decide)
